import Mathlib

/-!
Verification of the Trady2 trading system core against its specification.

Shallow embedding of:
- `apps/trading_core/risk_manager.py` (RiskManager configuration validation)
- `apps/trading_core/circuit_breaker.py` (CircuitBreaker.check)
- `apps/trading_core/execution_manager.py` (ExecutionManager.execute_trade)
- `apps/analytics/models/train.py` (create_triple_barrier_target)
- `apps/analytics/backtesting/run.py` (run_vectorized_backtest)
- `apps/trading_core/decision_manager.py` (DecisionManager.run_analysis)

Python floats appearing in exact comparisons are embedded as the exact
rational value of the IEEE-754 double; Decimal values are exact rationals.
-/

namespace Trady

/-! ### RiskManager (apps/trading_core/risk_manager.py)

`RiskManager.__init__` validates `0 < risk_per_trade_pct < 0.1` and raises
`ValueError` otherwise.  `risk_per_trade_pct` is a `Decimal` (an exact
rational); the literal `0.1` is a Python float, whose exact value is
`3602879701896397 / 2^55`, slightly above 1/10.  Python compares `Decimal`
and `float` exactly, so the accepted set is the open rational interval
`(0, 3602879701896397/36028797018963968)`. -/

/-- Exact rational value of the IEEE-754 double written `0.1` in Python. -/
def floatLit01 : ℚ := 3602879701896397 / 36028797018963968

structure RiskManager where
  account_balance : ℚ
  risk_per_trade_pct : ℚ
  risk_amount : ℚ
deriving DecidableEq

/-- Embedding of `RiskManager.__init__` (the `df_ohlcv` argument is stored
unchanged and plays no role in validation; the ATR-based
`calculate_trade_parameters` depends on the external `ta` library and is
outside the claims).  Returns `.error` when the constructor raises
`ValueError`. -/
def RiskManager.init (account_balance risk_per_trade_pct : ℚ) :
    Except String RiskManager :=
  if ¬ (0 < risk_per_trade_pct ∧ risk_per_trade_pct < floatLit01) then
    .error "risk_per_trade_pct must be between 0 and 0.1"
  else
    .ok { account_balance := account_balance
          risk_per_trade_pct := risk_per_trade_pct
          risk_amount := account_balance * risk_per_trade_pct }

/-! ### Execution state (apps/trading_core/models.py)

`Order.signal` is a `OneToOneField`, so a signal owns at most one order;
the database state relevant to one signal is its signal row, its optional
order row, and the singleton `CircuitBreakerState` row (optional: it is
materialized on demand by `get_or_create`). -/

structure SignalRow where
  status : String
  cancel_reason : Option String
deriving DecidableEq

structure OrderRow where
  status : String
  broker_order_id : Option String
  broker_error : Option String
deriving DecidableEq

structure CBState where
  is_tripped : Bool
  reason : Option String
deriving DecidableEq

structure DB where
  signal : SignalRow
  order : Option OrderRow
  breaker : Option CBState
deriving DecidableEq

/-! ### CircuitBreaker (apps/trading_core/circuit_breaker.py) -/

/-- `CircuitBreakerState.objects.get_or_create(id=1)`: fetches the singleton
row, creating it with model defaults (`is_tripped=False`) when absent. -/
def getOrCreateBreaker (db : DB) : CBState × DB :=
  match db.breaker with
  | some s => (s, db)
  | none =>
    let s : CBState := { is_tripped := false, reason := none }
    (s, { db with breaker := some s })

/-- Embedding of `CircuitBreaker.check`: raises `PermissionError` iff the
singleton state `is_tripped`; `.error` carries the message. -/
def CircuitBreaker.check (db : DB) : Except String DB :=
  let p := getOrCreateBreaker db
  if p.1.is_tripped then
    .error ("Circuit Breaker Tripped: " ++ p.1.reason.getD "None")
  else
    .ok p.2

/-! ### ExecutionManager (apps/trading_core/execution_manager.py)

`execute_trade` runs the guard, breaker check and `_process_order` inside
`transaction.atomic()`: when an exception escapes the block, every database
write made inside it is rolled back.  The exception handlers then run in
autocommit mode against the rolled-back state.  `execute_trade` itself
catches `PermissionError` and every other `Exception`, so it never
re-raises; the embedding is therefore a total function on `DB`. -/

inductive ExecMode
  | demo
  | live
deriving DecidableEq

/-- Embedding of `ExecutionManager._process_order` under the enclosing
transaction.  `Order.objects.create` violates the one-to-one constraint when
an order already exists (`IntegrityError`); in `live` mode a `RuntimeError`
is raised after the `SENT` order is created — both exceptions roll back the
atomic block, so the intermediate `SENT` write is never visible and is not
represented.  In `demo` mode the order is saved as `FILLED` and the signal
becomes `EXECUTED`. -/
def process_order (mode : ExecMode) (db : DB) : Except String DB :=
  match db.order with
  | some _ => .error "IntegrityError: order already exists for this signal"
  | none =>
    match mode with
    | .live => .error "Live trading is disabled."
    | .demo =>
      .ok { db with
            order := some { status := "FILLED"
                            broker_order_id := some "demo"
                            broker_error := none }
            signal := { db.signal with status := "EXECUTED" } }

/-- Embedding of `ExecutionManager._handle_cancellation`: sets the signal to
`CANCELLED` and records the trip reason in `meta`. -/
def handle_cancellation (db : DB) (reason : String) : DB :=
  { db with signal := { db.signal with status := "CANCELLED"
                                       cancel_reason := some reason } }

/-- Embedding of `ExecutionManager._handle_failure`:
`Order.objects.filter(signal=...).update(status="FAILED", ...)` — updates
whatever orders exist for the signal at that point (after the rollback). -/
def handle_failure (db : DB) (err : String) : DB :=
  { db with order :=
      db.order.map (fun o => { o with status := "FAILED", broker_error := some err }) }

/-- Embedding of `ExecutionManager.execute_trade`.  The `if` guard and the
breaker check run inside the atomic block; on `PermissionError` or any other
exception the block's writes are rolled back to the entry state `db` before
the corresponding handler runs. -/
def execute_trade (mode : ExecMode) (db : DB) : DB :=
  if db.signal.status ≠ "PENDING" then db
  else
    match CircuitBreaker.check db with
    | .error reason => handle_cancellation db reason
    | .ok db1 =>
      match process_order mode db1 with
      | .ok db2 => db2
      | .error err => handle_failure db err

/-! ### Barrier labeler (apps/analytics/models/train.py)

`create_triple_barrier_target` races an upper barrier
`p[t]*(1+v[t]*pt_multiplier)` against a lower barrier
`p[t]*(1-v[t]*sl_multiplier)` over forward steps `1..time_horizon`.  The
NumPy loop shifts the price array by `step`; entries beyond the end of the
series are `NaN`, and every comparison against `NaN` is `False`.  The
`first_touch` arrays start at `np.inf` (here `none`) and each cell is only
written once, at the earliest hitting step.  The vectorized masks act
cell-wise, so the embedding tracks one cell of each array. -/

/-- `future_p[t]` at a given `step`: `p[t+step]` when it exists, else the
`NaN` padding (`none`, which fails every comparison). -/
def futurePrice (p : List ℚ) (t step : ℕ) : Option ℚ :=
  p.get? (t + step)

/-- The mask `(future_p >= upper) & (first_touch_up == np.inf)` at cell `t`
(without the not-yet-touched conjunct, which `touchCell` applies). -/
def hitUp (p v : List ℚ) (pt : ℚ) (t step : ℕ) : Bool :=
  match futurePrice p t step with
  | none => false
  | some fp => decide (fp ≥ p.getD t 0 * (1 + v.getD t 0 * pt))

/-- The mask `(future_p <= lower) & (first_touch_down == np.inf)` at cell `t`
(without the not-yet-touched conjunct, which `touchCell` applies). -/
def hitDown (p v : List ℚ) (sl : ℚ) (t step : ℕ) : Bool :=
  match futurePrice p t step with
  | none => false
  | some fp => decide (fp ≤ p.getD t 0 * (1 - v.getD t 0 * sl))

/-- One cell of a `first_touch` array after the loop has run steps
`1..bound`: starts as `np.inf` (`none`) and is written at the first step
whose hit mask is true. -/
def touchCell (hit : ℕ → Bool) : ℕ → Option ℕ
  | 0 => none
  | bound + 1 =>
    match touchCell hit bound with
    | some s => some s
    | none => if hit (bound + 1) then some (bound + 1) else none

/-- Strict comparison of touch steps with `np.inf` represented by `none`:
`first_touch_up < first_touch_down`. -/
def touchLt : Option ℕ → Option ℕ → Bool
  | none, _ => false
  | some _, none => true
  | some a, some b => decide (a < b)

/-- Embedding of `create_triple_barrier_target`: per index `t`,
`is_profit = (first_touch_up != inf) & (first_touch_up < first_touch_down)`,
`is_worth = volatility * pt_multiplier > min_ret`, label
`(is_profit & is_worth).astype(int)`. -/
def create_triple_barrier_target (prices volatility : List ℚ)
    (time_horizon : ℕ) (pt_multiplier sl_multiplier min_ret : ℚ) : List ℕ :=
  (List.range prices.length).map (fun t =>
    let fu := touchCell (hitUp prices volatility pt_multiplier t) time_horizon
    let fd := touchCell (hitDown prices volatility sl_multiplier t) time_horizon
    let is_profit := fu.isSome && touchLt fu fd
    let is_worth := decide (volatility.getD t 0 * pt_multiplier > min_ret)
    if is_profit && is_worth then 1 else 0)

/-- Spec-side first touch of the upper barrier: the first forward step
`s ∈ [1..H]` whose future price meets-or-exceeds the upper barrier,
`none` (= +infinity) when unresolved.  Written from the spec words, to be
compared with the loop-derived `touchCell`. -/
def firstUpSpec (p v : List ℚ) (pt : ℚ) (H t : ℕ) : Option ℕ :=
  ((List.range H).map (· + 1)).find? (fun s => hitUp p v pt t s)

/-- Spec-side first touch of the lower barrier, `none` when unresolved. -/
def firstDownSpec (p v : List ℚ) (sl : ℚ) (H t : ℕ) : Option ℕ :=
  ((List.range H).map (· + 1)).find? (fun s => hitDown p v sl t s)

/-! ### Position simulator (apps/analytics/backtesting/run.py)

`run_vectorized_backtest` consumes the joined, time-sorted DataFrame of
prices plus `long_signal` / `short_signal` columns; the join and sort are
pandas operations, so the embedding takes the joined row list directly,
with positional indices standing for timestamps.  Config keys
`stop_loss_pct` / `take_profit_pct` may be absent (`None`): Python tests
them for truthiness (`if sl_pct ...`), so `None` and `0.0` both disable the
corresponding barrier.  The exit check `if exit_price:` is likewise a
truthiness test, false for `None` and for a barrier priced at `0.0`.
The `dates` list mirrors `equity` index-for-index and carries no further
information, so it is not represented. -/

structure Row where
  open_price : ℚ
  high : ℚ
  low : ℚ
  close : ℚ
  long_signal : ℚ
  short_signal : ℚ
deriving DecidableEq

structure BTConfig where
  initial_capital : ℚ
  stop_loss_pct : Option ℚ
  take_profit_pct : Option ℚ
  slippage_pct : ℚ
  commission_pct : ℚ
deriving DecidableEq

/-- Python truthiness of an optional numeric config value: `None` and `0.0`
are falsy. -/
def qTruthy : Option ℚ → Bool
  | none => false
  | some x => decide (x ≠ 0)

/-- `df["long_signal"].shift(1) > 0` and `df["short_signal"].shift(1) > 0`:
row `i` takes the signals of row `i-1`; the shifted-in `NaN` at row 0
compares false. -/
def shiftedSignals (rows : List Row) : List (Bool × Bool) :=
  match rows with
  | [] => []
  | _ :: _ =>
    (false, false) ::
      rows.dropLast.map (fun r => (decide (r.long_signal > 0), decide (r.short_signal > 0)))

/-- Conflict suppression: rows where `enter_long & enter_short` get both
flags cleared. -/
def enterFlags (rows : List Row) : List (Bool × Bool) :=
  (shiftedSignals rows).map (fun e => if e.1 && e.2 then (false, false) else e)

structure PositionDetails where
  entry_time : ℕ
  entry_price_after_costs : ℚ
  stop_price : Option ℚ
  tp_price : Option ℚ
deriving DecidableEq

structure TradeRec where
  entry_time : ℕ
  exit_time : ℕ
  pnl_pct : ℚ
  exit_reason : String
  trade_type : String
deriving DecidableEq

structure BTState where
  in_position : Int
  position_details : Option PositionDetails
  trades : List TradeRec
  equity : List ℚ
deriving DecidableEq

/-- Long: `sl_pct and low <= stop_price` (missing `stop_price` defaults to
`-inf`, making the comparison false); short: `sl_pct and high >= stop_price`
(default `+inf`, false). -/
def stopHit (cfg : BTConfig) (side : Int) (row : Row) (d : PositionDetails) : Bool :=
  qTruthy cfg.stop_loss_pct &&
    (match d.stop_price with
     | some sp => if side = 1 then decide (row.low ≤ sp) else decide (row.high ≥ sp)
     | none => false)

/-- Long: `tp_pct and high >= tp_price` (default `+inf`, false); short:
`tp_pct and low <= tp_price` (default `-inf`, false). -/
def tpHit (cfg : BTConfig) (side : Int) (row : Row) (d : PositionDetails) : Bool :=
  qTruthy cfg.take_profit_pct &&
    (match d.tp_price with
     | some tp => if side = 1 then decide (row.high ≥ tp) else decide (row.low ≤ tp)
     | none => false)

/-- The exit branch of the loop body: the stop condition is tested first,
then (`elif`) the target condition; the result is the barrier price and the
exit reason string.  When the branch taken sets a price, `stop_price`
(resp. `tp_price`) is necessarily `some`; the `getD` default is never
used. -/
def exitDecision (cfg : BTConfig) (side : Int) (row : Row) (d : PositionDetails) :
    Option (ℚ × String) :=
  if stopHit cfg side row d then some (d.stop_price.getD 0, "SL")
  else if tpHit cfg side row d then some (d.tp_price.getD 0, "TP")
  else none

/-- Percentage return on close:
long `exit_price*(1-slippage-commission)/entry_price_after_costs - 1`,
short `entry_price_after_costs/(exit_price*(1+slippage+commission)) - 1`. -/
def pnlOf (cfg : BTConfig) (side : Int) (entryAC exitPrice : ℚ) : ℚ :=
  if side = 1 then
    exitPrice * (1 - cfg.slippage_pct - cfg.commission_pct) / entryAC - 1
  else
    entryAC / (exitPrice * (1 + cfg.slippage_pct + cfg.commission_pct)) - 1

/-- Step `1.` of the loop body at bar `i`: exit handling while in a
position.  On a close the trade is appended, `equity` gains one point equal
to `equity[-1] * (1 + pnl_pct)`, and the state returns to flat.  The loop
maintains `position_details` present whenever `in_position != 0`; the
unreachable `none` case leaves the state unchanged. -/
def exitPhase (cfg : BTConfig) (i : ℕ) (row : Row) (st : BTState) : BTState :=
  if st.in_position ≠ 0 then
    match st.position_details with
    | none => st
    | some d =>
      match exitDecision cfg st.in_position row d with
      | some (xp, reason) =>
        if xp ≠ 0 then
          let pnl := pnlOf cfg st.in_position d.entry_price_after_costs xp
          { in_position := 0
            position_details := none
            trades := st.trades ++
              [{ entry_time := d.entry_time, exit_time := i, pnl_pct := pnl,
                 exit_reason := reason,
                 trade_type := if st.in_position = 1 then "LONG" else "SHORT" }]
            equity := st.equity ++ [st.equity.getLastD cfg.initial_capital * (1 + pnl)] }
        else st
      | none => st
  else st

/-- Step `2.` of the loop body at bar `i`: entry handling while flat (also
reached on the bar that just closed a trade).  Entry executes at the current
bar's open; the entry price is cost-adjusted (long pays more, short receives
less) while stop and target are set from the raw open price, or `None` when
the corresponding config value is falsy. -/
def entryPhase (cfg : BTConfig) (i : ℕ) (row : Row) (eL eS : Bool) (st : BTState) : BTState :=
  if st.in_position = 0 then
    let entry_price := row.open_price
    if eL then
      { st with
        in_position := 1
        position_details := some
          { entry_time := i
            entry_price_after_costs := entry_price * (1 + cfg.slippage_pct + cfg.commission_pct)
            stop_price := if qTruthy cfg.stop_loss_pct then
                some (entry_price * (1 - cfg.stop_loss_pct.getD 0)) else none
            tp_price := if qTruthy cfg.take_profit_pct then
                some (entry_price * (1 + cfg.take_profit_pct.getD 0)) else none } }
    else if eS then
      { st with
        in_position := -1
        position_details := some
          { entry_time := i
            entry_price_after_costs := entry_price * (1 - cfg.slippage_pct - cfg.commission_pct)
            stop_price := if qTruthy cfg.stop_loss_pct then
                some (entry_price * (1 + cfg.stop_loss_pct.getD 0)) else none
            tp_price := if qTruthy cfg.take_profit_pct then
                some (entry_price * (1 - cfg.take_profit_pct.getD 0)) else none } }
    else st
  else st

/-- The main loop, `for i in range(1, len(df))`, over bars paired with their
index and enter flags. -/
def btLoop (cfg : BTConfig) : List (ℕ × Row × Bool × Bool) → BTState → BTState
  | [], st => st
  | (i, row, eL, eS) :: rest, st =>
    btLoop cfg rest (entryPhase cfg i row eL eS (exitPhase cfg i row st))

/-- Bars `1..len-1` paired with their index and enter flags. -/
def indexedRows (rows : List Row) : List (ℕ × Row × Bool × Bool) :=
  ((List.range rows.length).zip (rows.zip (enterFlags rows))).drop 1

/-- `cummax` of the equity series, given the running maximum so far. -/
def cummaxFrom (m : ℚ) : List ℚ → List ℚ
  | [] => []
  | x :: xs => max m x :: cummaxFrom (max m x) xs

/-- `equity_series.cummax()`. -/
def runningMax : List ℚ → List ℚ
  | [] => []
  | x :: xs => x :: cummaxFrom x xs

/-- `.min()` of a series (0 only in the unreachable empty case). -/
def listMin : List ℚ → ℚ
  | [] => 0
  | x :: xs => xs.foldl min x

/-- `((equity_series - running_max) / running_max).min()`. -/
def maxDrawdown (equity : List ℚ) : ℚ :=
  listMin ((equity.zip (runningMax equity)).map (fun e => (e.1 - e.2) / e.2))

/-- Result dictionary of `run_vectorized_backtest`.  The `sharpe_ratio`
entry is a float whose non-degenerate value carries the irrational factor
`sqrt(252*24)` (and is `NaN` for a single trade); it is represented exactly
(`some q`) only where the code returns a rational literal, and as `none`
otherwise — no claim refers to it outside the zero-trade branch. -/
structure BTResult where
  total_return_pct : ℚ
  sharpe : Option ℚ
  max_drawdown_pct : ℚ
  final_capital : ℚ
  num_trades : ℕ
  trades : List TradeRec
  equity : List ℚ
deriving DecidableEq

/-- The loop's initial state: flat, no trades,
`equity = [initial_capital]`. -/
def initialState (cfg : BTConfig) : BTState :=
  { in_position := 0, position_details := none, trades := [],
    equity := [cfg.initial_capital] }

/-- Embedding of `run_vectorized_backtest`.  Initial state: flat, no
trades, `equity = [initial_capital]`.  With no trades the function returns
the neutral literal dictionary; otherwise the metrics are computed from the
equity series. -/
def run_vectorized_backtest (cfg : BTConfig) (rows : List Row) : BTResult :=
  let st := btLoop cfg (indexedRows rows) (initialState cfg)
  if st.trades = [] then
    { total_return_pct := 0, sharpe := some 0, max_drawdown_pct := 0,
      final_capital := cfg.initial_capital, num_trades := 0, trades := [],
      equity := [cfg.initial_capital] }
  else
    let final_capital := st.equity.getLastD cfg.initial_capital
    { total_return_pct := (final_capital / cfg.initial_capital - 1) * 100
      sharpe := none
      max_drawdown_pct := maxDrawdown st.equity * 100
      final_capital := final_capital
      num_trades := st.trades.length
      trades := st.trades
      equity := st.equity }

/-! ### Decision pipeline (apps/trading_core/decision_manager.py)

`DecisionManager.run_analysis` is a chain of gates ending, on acceptance, in
the creation of exactly one `TradingSignal` (via `get_or_create`).  The
indicator values (`EMAIndicator`, `RSIIndicator`, `ADXIndicator`,
`AverageTrueRange`, the feature pipeline's `vol_std`, the classifier
probability) are produced by external libraries over the loaded data; the
embedding takes them, together with the data-availability outcomes, as the
market view and embeds only the pipeline's own control flow and signal
arithmetic.  All prices flow through `Decimal(str(...))`, i.e. exact
rationals. -/

/-- Exact rational value of the IEEE-754 double written `0.60` in Python
(the `ML_THRESHOLD` literal). -/
def floatLit06 : ℚ := 5404319552844595 / 9007199254740992

structure MarketView where
  data_load_ok : Bool
  h1_len : ℕ
  d1_len : ℕ
  d1_adx : ℚ
  d1_atr : ℚ
  h1_ema200 : ℚ
  h1_rsi : ℚ
  h1_adx : ℚ
  last_close : ℚ
  last_open : ℚ
  model_available : Bool
  ml_ok : Bool
  ml_prob : ℚ
  vol_std : ℚ
deriving DecidableEq

/-- The `defaults` of the `TradingSignal.objects.get_or_create` call. -/
structure SignalDraft where
  signal_type : String
  entry_price : ℚ
  stop_loss : ℚ
  take_profit : ℚ
  position_size : ℚ
  status : String
deriving DecidableEq

/-- `Decimal.quantize` uses `ROUND_HALF_EVEN` by default. -/
def roundHalfEven (y : ℚ) : ℤ :=
  let f : ℤ := ⌊y⌋
  let frac := y - f
  if frac < 1/2 then f
  else if frac > 1/2 then f + 1
  else if f % 2 = 0 then f else f + 1

/-- `position_size.quantize(Decimal("0.01"))`. -/
def quantize2 (x : ℚ) : ℚ := (roundHalfEven (x * 100) : ℚ) / 100

/-- Embedding of `DecisionManager.run_analysis`: data loading and depth
gates, the macro regime gate (`d1_atr < 15.0 or d1_adx < 20.0` aborts), the
four-part H1 strategy signal, the ML gates, then the signal arithmetic:
`stop_dist = max(price*vol*1.5, 2.5)`, `tp_dist = max(price*vol*2.0, 4.0)`,
`position_size = quantize((balance*risk)/stop_dist)`.  `none` means the
cycle ends with no signal created. -/
def DecisionManager.run_analysis (account_balance risk_per_trade_pct : ℚ)
    (m : MarketView) : Option SignalDraft :=
  if ¬ m.data_load_ok then none
  else if m.h1_len < 200 ∨ m.d1_len < 50 then none
  else if m.d1_atr < 15 ∨ m.d1_adx < 20 then none
  else if ¬ (m.last_close > m.h1_ema200 ∧ m.h1_rsi < 45 ∧
             m.h1_adx > 20 ∧ m.last_close > m.last_open) then none
  else if ¬ m.model_available then none
  else if ¬ m.ml_ok then none
  else if m.ml_prob < floatLit06 then none
  else
    let current_price := m.last_close
    let raw_stop_dist := current_price * m.vol_std * (3/2)
    let stop_dist := max raw_stop_dist (5/2)
    let stop_loss := current_price - stop_dist
    let tp_dist := max (current_price * m.vol_std * 2) 4
    let take_profit := current_price + tp_dist
    if stop_dist = 0 then none
    else
      let risk_amount := account_balance * risk_per_trade_pct
      some { signal_type := "BUY"
             entry_price := current_price
             stop_loss := stop_loss
             take_profit := take_profit
             position_size := quantize2 (risk_amount / stop_dist)
             status := "PENDING" }

/-- `RiskManager` construction succeeds (no `ValueError` raised). -/
def riskInitAccepted (account_balance risk_per_trade_pct : ℚ) : Bool :=
  match RiskManager.init account_balance risk_per_trade_pct with
  | .ok _ => true
  | .error _ => false

/-! ### Theorems -/

/-- C7 counterexample: the claim says every `risk_per_trade_pct` larger
than 0.1 is rejected, but `Decimal("0.100000000000000001")` is strictly
larger than 0.1 and is accepted, because the guard compares against the
float literal `0.1`, whose exact value `3602879701896397/2^55` lies above
1/10. -/
theorem riskmanager_accepts_a_value_above_tenth :
    (1/10 : ℚ) < 100000000000000001/1000000000000000000 ∧
    riskInitAccepted 10000 (100000000000000001/1000000000000000000) = true := by
  constructor
  · norm_num
  · with_unfolding_all rfl

/-- C7 (amended): construction succeeds exactly when
`0 < risk_per_trade_pct < 3602879701896397/2^55` (the float64 value of the
literal `0.1`, slightly above 1/10).  In particular every value in the
claimed interval `(0, 0.1]` is accepted, but so is a thin band above 0.1;
values at or above the float literal raise `ValueError` and are never
clamped. -/
theorem riskmanager_accept_iff :
    ∀ b q : ℚ, (riskInitAccepted b q = true ↔ (0 < q ∧ q < floatLit01)) ∧
      (0 < q → q ≤ 1/10 → riskInitAccepted b q = true) := by
  intro b q
  have hiff : riskInitAccepted b q = true ↔ (0 < q ∧ q < floatLit01) := by
    unfold riskInitAccepted RiskManager.init
    by_cases h : 0 < q ∧ q < floatLit01
    · simp [h]
    · simp [h]
  refine ⟨hiff, fun h0 h1 => hiff.mpr ⟨h0, lt_of_le_of_lt h1 ?_⟩⟩
  unfold floatLit01
  norm_num

/-- C7 witness: `riskmanager_accept_iff` evaluated at `q = 1/20`. -/
theorem riskmanager_accept_iff_witness :
    riskInitAccepted 10000 (1/20) = true :=
  ((riskmanager_accept_iff 10000 (1/20)).2 (by norm_num) (by norm_num))

/-- C8: `CircuitBreaker.check` raises (`PermissionError`) iff the shared
`CircuitBreakerState` row has `is_tripped = true`, and when it is not
tripped the call returns normally with the database unchanged. -/
theorem check_raises_iff_tripped (db : DB) (s : CBState)
    (h : db.breaker = some s) :
    ((∃ e, CircuitBreaker.check db = .error e) ↔ s.is_tripped = true) ∧
    (s.is_tripped = false → CircuitBreaker.check db = .ok db) := by
  unfold CircuitBreaker.check getOrCreateBreaker
  rw [h]
  cases hs : s.is_tripped <;> simp [hs]

def dbUntripped : DB :=
  { signal := { status := "PENDING", cancel_reason := none }
    order := none
    breaker := some { is_tripped := false, reason := none } }

/-- C8 witness: `check_raises_iff_tripped` at a concrete untripped state. -/
theorem check_raises_iff_tripped_witness :
    ((∃ e, CircuitBreaker.check dbUntripped = .error e) ↔
      ({ is_tripped := false, reason := none } : CBState).is_tripped = true) ∧
    (({ is_tripped := false, reason := none } : CBState).is_tripped = false →
      CircuitBreaker.check dbUntripped = .ok dbUntripped) :=
  check_raises_iff_tripped dbUntripped { is_tripped := false, reason := none } rfl

/-- C3: in demo mode, from a `PENDING` signal with no order and an
untripped (or absent) breaker row, `execute_trade` flips the signal to
`EXECUTED` and creates exactly one `FILLED` order; re-invoking it is a
no-op, and more generally any invocation on a signal whose status is not
`PENDING` returns without creating an order or changing any state. -/
theorem execute_trade_idempotent :
    (∀ db : DB, db.signal.status = "PENDING" → db.order = none →
      (getOrCreateBreaker db).1.is_tripped = false →
      ((execute_trade .demo db).signal.status = "EXECUTED" ∧
       (execute_trade .demo db).order =
         some { status := "FILLED", broker_order_id := some "demo", broker_error := none } ∧
       execute_trade .demo (execute_trade .demo db) = execute_trade .demo db)) ∧
    (∀ (mode : ExecMode) (db : DB), db.signal.status ≠ "PENDING" →
      execute_trade mode db = db) := by
  have hskip : ∀ (mode : ExecMode) (db : DB), db.signal.status ≠ "PENDING" →
      execute_trade mode db = db := by
    intro mode db h
    unfold execute_trade
    simp [h]
  refine ⟨?_, hskip⟩
  intro db h1 h2 h3
  obtain ⟨sig, ord, br⟩ := db
  simp only at h1 h2
  subst h2
  have hstep : execute_trade .demo ⟨sig, none, br⟩ =
      ⟨{ sig with status := "EXECUTED" },
       some { status := "FILLED", broker_order_id := some "demo", broker_error := none },
       (getOrCreateBreaker ⟨sig, none, br⟩).2.breaker⟩ := by
    cases br with
    | none =>
      unfold execute_trade CircuitBreaker.check getOrCreateBreaker process_order
      simp [h1]
    | some s =>
      have hs : s.is_tripped = false := by
        simpa [getOrCreateBreaker] using h3
      unfold execute_trade CircuitBreaker.check getOrCreateBreaker process_order
      simp [h1, hs]
  refine ⟨by rw [hstep], by rw [hstep], ?_⟩
  rw [hstep]
  exact hskip .demo _ (by simp)

def dbPending : DB :=
  { signal := { status := "PENDING", cancel_reason := none }
    order := none
    breaker := some { is_tripped := false, reason := none } }

/-- C3 witness: `execute_trade_idempotent` at a concrete pending signal and
at a concrete executed signal. -/
theorem execute_trade_idempotent_witness :
    ((execute_trade .demo dbPending).signal.status = "EXECUTED" ∧
     (execute_trade .demo dbPending).order =
       some { status := "FILLED", broker_order_id := some "demo", broker_error := none } ∧
     execute_trade .demo (execute_trade .demo dbPending) = execute_trade .demo dbPending) ∧
    execute_trade .demo { dbPending with signal := { status := "EXECUTED", cancel_reason := none } } =
      { dbPending with signal := { status := "EXECUTED", cancel_reason := none } } :=
  ⟨execute_trade_idempotent.1 dbPending rfl rfl rfl,
   execute_trade_idempotent.2 .demo _ (by decide)⟩

/-- C5: failing input evaluated.  With a `PENDING` signal, no order, an
untripped breaker, and `EXECUTION_MODE = "live"` (whose order placement
raises `RuntimeError`, standing for any unexpected execution exception),
`execute_trade` swallows the exception but the final persisted state is the
entry state: the `SENT` order created inside `transaction.atomic()` is
rolled back, `_handle_failure`'s `UPDATE ... SET status="FAILED"` matches
zero rows, and NO order exists for the signal — contradicting the claim
that an order with status `FAILED` persists.  The signal does remain
`PENDING` and nothing is re-raised, as claimed. -/
theorem execute_trade_live_failure_leaves_no_order :
    execute_trade .live dbPending = dbPending ∧
    (execute_trade .live dbPending).order = none ∧
    (execute_trade .live dbPending).signal.status = "PENDING" := by
  refine ⟨by decide, by decide, by decide⟩

/-- C10: every signal the decision pipeline creates is a `BUY` in `PENDING`
status, with its stop loss strictly below and its take profit strictly
above the entry price — for every market view, no SELL/short signal is ever
emitted. -/
theorem run_analysis_only_buy (account_balance risk_per_trade_pct : ℚ)
    (m : MarketView) (s : SignalDraft)
    (h : DecisionManager.run_analysis account_balance risk_per_trade_pct m = some s) :
    s.signal_type = "BUY" ∧ s.status = "PENDING" ∧
    s.stop_loss < s.entry_price ∧ s.entry_price < s.take_profit := by
  unfold DecisionManager.run_analysis at h
  have hstop : (0:ℚ) < max (m.last_close * m.vol_std * (3/2)) (5/2) :=
    lt_of_lt_of_le (by norm_num) (le_max_right _ _)
  have htp : (0:ℚ) < max (m.last_close * m.vol_std * 2) 4 :=
    lt_of_lt_of_le (by norm_num) (le_max_right _ _)
  split at h
  · exact absurd h (by simp)
  split at h
  · exact absurd h (by simp)
  split at h
  · exact absurd h (by simp)
  split at h
  · exact absurd h (by simp)
  split at h
  · exact absurd h (by simp)
  split at h
  · exact absurd h (by simp)
  split at h
  · exact absurd h (by simp)
  dsimp only at h
  split at h
  · exact absurd h (by simp)
  · rw [Option.some_inj] at h
    subst h
    refine ⟨rfl, rfl, ?_, ?_⟩
    · simp only []
      exact sub_lt_self m.last_close hstop
    · simp only []
      exact lt_add_of_pos_right m.last_close htp

def marketViewAccept : MarketView :=
  { data_load_ok := true, h1_len := 300, d1_len := 80
    d1_adx := 25, d1_atr := 20
    h1_ema200 := 90, h1_rsi := 40, h1_adx := 25
    last_close := 100, last_open := 99
    model_available := true, ml_ok := true, ml_prob := 7/10
    vol_std := 0 }

/-- C10 witness: `run_analysis_only_buy` at a concrete accepting market
view (volatility 0, so the floors 2.5 and 4.0 set the distances). -/
theorem run_analysis_only_buy_witness :
    (DecisionManager.run_analysis 10000 (1/400) marketViewAccept = some
      { signal_type := "BUY", entry_price := 100, stop_loss := 195/2,
        take_profit := 104, position_size := 10, status := "PENDING" }) ∧
    (({ signal_type := "BUY", entry_price := 100, stop_loss := 195/2,
        take_profit := 104, position_size := 10, status := "PENDING" } : SignalDraft).signal_type = "BUY" ∧
     ({ signal_type := "BUY", entry_price := 100, stop_loss := 195/2,
        take_profit := 104, position_size := 10, status := "PENDING" } : SignalDraft).status = "PENDING" ∧
     ({ signal_type := "BUY", entry_price := 100, stop_loss := 195/2,
        take_profit := 104, position_size := 10, status := "PENDING" } : SignalDraft).stop_loss <
       ({ signal_type := "BUY", entry_price := 100, stop_loss := 195/2,
          take_profit := 104, position_size := 10, status := "PENDING" } : SignalDraft).entry_price ∧
     ({ signal_type := "BUY", entry_price := 100, stop_loss := 195/2,
        take_profit := 104, position_size := 10, status := "PENDING" } : SignalDraft).entry_price <
       ({ signal_type := "BUY", entry_price := 100, stop_loss := 195/2,
          take_profit := 104, position_size := 10, status := "PENDING" } : SignalDraft).take_profit) :=
  ⟨by with_unfolding_all rfl,
   run_analysis_only_buy 10000 (1/400) marketViewAccept _ (by with_unfolding_all rfl)⟩

/-- The single-write loop cell equals the first hitting step in `[1..H]`:
the loop writes each `first_touch` cell only where it still equals
`np.inf`, so the recorded step is the earliest hit. -/
theorem touchCell_eq_find (hit : ℕ → Bool) (H : ℕ) :
    touchCell hit H = ((List.range H).map (· + 1)).find? hit := by
  induction H with
  | zero => rfl
  | succ n ih =>
    rw [List.range_succ, List.map_append, List.find?_append]
    unfold touchCell
    rw [ih]
    cases hfind : ((List.range n).map (· + 1)).find? hit with
    | some s => simp
    | none =>
      cases hht : hit (n + 1) <;> simp [List.find?, hht]

/-- `touchLt` is irreflexive, and a true `touchLt` forces a finite left
argument. -/
theorem touchLt_irrefl (x : Option ℕ) : touchLt x x = false := by
  cases x with
  | none => rfl
  | some a => simp [touchLt]

theorem touchLt_isSome {x y : Option ℕ} (h : touchLt x y = true) : x.isSome = true := by
  cases x with
  | none => exact absurd h (by simp [touchLt])
  | some a => rfl

/-- C4: for every index `t`, the label is 1 iff the first touch of the
upper barrier is strictly earlier than the first touch of the lower barrier
(unresolved touches being `+infinity`, i.e. `none`) AND
`v[t] * pt_multiplier > min_ret`; a simultaneous first touch yields label 0,
and `v[t] * pt_multiplier <= min_ret` forces label 0 regardless of the
price path. -/
theorem label_one_iff (p v : List ℚ) (H : ℕ) (pt sl minr : ℚ) (t : ℕ)
    (ht : t < p.length) :
    ((create_triple_barrier_target p v H pt sl minr).get? t = some 1 ↔
      (touchLt (firstUpSpec p v pt H t) (firstDownSpec p v sl H t) = true ∧
       v.getD t 0 * pt > minr)) ∧
    (firstUpSpec p v pt H t = firstDownSpec p v sl H t →
      (create_triple_barrier_target p v H pt sl minr).get? t = some 0) ∧
    (v.getD t 0 * pt ≤ minr →
      (create_triple_barrier_target p v H pt sl minr).get? t = some 0) := by
  have hbody : (create_triple_barrier_target p v H pt sl minr).get? t =
      some (if (touchLt (firstUpSpec p v pt H t) (firstDownSpec p v sl H t) &&
                decide (v.getD t 0 * pt > minr)) then 1 else 0) := by
    unfold create_triple_barrier_target
    rw [List.get?_map, List.get?_range ht]
    simp only [Option.map_some']
    congr 1
    rw [touchCell_eq_find, touchCell_eq_find]
    have hprofit : ∀ x y : Option ℕ, (x.isSome && touchLt x y) = touchLt x y := by
      intro x y
      cases hxy : touchLt x y with
      | true => rw [touchLt_isSome hxy]; rfl
      | false => cases x <;> simp
    rw [hprofit]
    rfl
  have hiter : ∀ c : Bool,
      ((some (if c = true then (1:ℕ) else 0) = some 1) ↔ c = true) := by
    intro c
    cases c <;> simp
  have hiter0 : ∀ c : Bool, c = false →
      some (if c = true then (1:ℕ) else 0) = some 0 := by
    intro c hc
    rw [hc]
    simp
  refine ⟨?_, ?_, ?_⟩
  · rw [hbody, hiter, Bool.and_eq_true, decide_eq_true_eq]
  · intro heq
    rw [hbody]
    apply hiter0
    rw [heq, touchLt_irrefl, Bool.false_and]
  · intro hle
    rw [hbody]
    apply hiter0
    have hdec : decide (v.getD t 0 * pt > minr) = false := by
      simpa using not_lt.mpr hle
    rw [hdec, Bool.and_false]

/-- Concrete price path for the labeler witness: at `t = 0`, price 100 with
volatility 1/100, `pt = 2`, `sl = 3/2` gives upper barrier 102 and lower
barrier 197/2; the path touches 102 at step 2 and never touches the lower
barrier within the horizon. -/
def labelPricesW : List ℚ := [100, 101, 103, 99]

def labelVolsW : List ℚ := [1/100, 1/100, 1/100, 1/100]

/-- C4 witness: `label_one_iff` evaluated at the concrete series above. -/
theorem label_one_iff_witness :
    (0 < labelPricesW.length) ∧
    (((create_triple_barrier_target labelPricesW labelVolsW 3 2 (3/2) (5/10000)).get? 0 =
        some 1 ↔
      (touchLt (firstUpSpec labelPricesW labelVolsW 2 3 0)
        (firstDownSpec labelPricesW labelVolsW (3/2) 3 0) = true ∧
       labelVolsW.getD 0 0 * 2 > 5/10000)) ∧
     (firstUpSpec labelPricesW labelVolsW 2 3 0 =
        firstDownSpec labelPricesW labelVolsW (3/2) 3 0 →
      (create_triple_barrier_target labelPricesW labelVolsW 3 2 (3/2) (5/10000)).get? 0 =
        some 0) ∧
     (labelVolsW.getD 0 0 * 2 ≤ 5/10000 →
      (create_triple_barrier_target labelPricesW labelVolsW 3 2 (3/2) (5/10000)).get? 0 =
        some 0)) :=
  ⟨by decide, label_one_iff labelPricesW labelVolsW 3 2 (3/2) (5/10000) 0 (by decide)⟩

/-! ### Backtest theorems -/

theorem getD_append_left {α : Type} (l l2 : List α) (i : ℕ) (h : i < l.length) (d : α) :
    (l ++ l2).getD i d = l.getD i d := by
  induction l generalizing i with
  | nil => exact absurd h (by simp)
  | cons a as ih =>
    cases i with
    | zero => rfl
    | succ j =>
      simp only [List.cons_append, List.getD_cons_succ]
      exact ih j (by simpa using h)

theorem getD_append_len {α : Type} (l : List α) (x d : α) :
    (l ++ [x]).getD l.length d = x := by
  induction l with
  | nil => rfl
  | cons a as ih =>
    simp only [List.cons_append, List.length_cons, List.getD_cons_succ]
    exact ih

theorem getD_default_irrelevant {α : Type} (l : List α) (i : ℕ)
    (h : i < l.length) (d1 d2 : α) : l.getD i d1 = l.getD i d2 := by
  induction l generalizing i with
  | nil => exact absurd h (by simp)
  | cons a as ih =>
    cases i with
    | zero => rfl
    | succ j =>
      simp only [List.getD_cons_succ]
      exact ih j (by simpa using h)

theorem getLastD_eq_getD {α : Type} (l : List α) (d : α) (k : ℕ)
    (h : l.length = k + 1) : l.getLastD d = l.getD k d := by
  induction l generalizing d k with
  | nil => simp at h
  | cons a as ih =>
    cases k with
    | zero =>
      have hnil : as = [] := List.length_eq_zero.mp (by simpa using h)
      subst hnil
      rfl
    | succ j =>
      rw [List.getLastD_cons, List.getD_cons_succ]
      rw [ih a j (by simpa using h)]
      exact getD_default_irrelevant as j (by simp [Nat.lt_of_succ_le, Nat.le_of_eq,
        (by simpa using h : as.length = j + 1)]) a d

/-- The entry branch of the loop body never touches the trade list or the
equity curve. -/
theorem entryPhase_trades_equity (cfg : BTConfig) (i : ℕ) (row : Row)
    (eL eS : Bool) (st : BTState) :
    (entryPhase cfg i row eL eS st).trades = st.trades ∧
    (entryPhase cfg i row eL eS st).equity = st.equity := by
  unfold entryPhase
  split
  · split
    · exact ⟨rfl, rfl⟩
    · split
      · exact ⟨rfl, rfl⟩
      · exact ⟨rfl, rfl⟩
  · exact ⟨rfl, rfl⟩

/-- The exit branch either leaves the state unchanged or closes the open
position, appending exactly one trade and one equity point
`equity[-1] * (1 + pnl_pct)`. -/
theorem exitPhase_cases (cfg : BTConfig) (i : ℕ) (row : Row) (st : BTState) :
    exitPhase cfg i row st = st ∨
    ∃ d xp reason, st.position_details = some d ∧
      exitDecision cfg st.in_position row d = some (xp, reason) ∧
      exitPhase cfg i row st =
        { in_position := 0
          position_details := none
          trades := st.trades ++
            [{ entry_time := d.entry_time, exit_time := i,
               pnl_pct := pnlOf cfg st.in_position d.entry_price_after_costs xp,
               exit_reason := reason,
               trade_type := if st.in_position = 1 then "LONG" else "SHORT" }]
          equity := st.equity ++
            [st.equity.getLastD cfg.initial_capital *
              (1 + pnlOf cfg st.in_position d.entry_price_after_costs xp)] } := by
  unfold exitPhase
  split
  · cases hd : st.position_details with
    | none => exact Or.inl rfl
    | some d =>
      cases hdec : exitDecision cfg st.in_position row d with
      | none =>
        left
        simp [hdec]
      | some pr =>
        obtain ⟨xp, reason⟩ := pr
        by_cases hxp : xp = 0
        · left
          simp [hdec, hxp]
        · right
          exact ⟨d, xp, reason, rfl, hdec, by simp [hdec, hxp]⟩
  · exact Or.inl rfl

/-- Exit reasons produced by the loop body are exactly the strings
`"SL"` and `"TP"`. -/
theorem exitDecision_reason (cfg : BTConfig) (side : Int) (row : Row)
    (d : PositionDetails) (xp : ℚ) (reason : String)
    (h : exitDecision cfg side row d = some (xp, reason)) :
    reason = "SL" ∨ reason = "TP" := by
  unfold exitDecision at h
  split at h
  · rw [Option.some_inj] at h
    exact Or.inl (congrArg Prod.snd h).symm
  split at h
  · rw [Option.some_inj] at h
    exact Or.inr (congrArg Prod.snd h).symm
  · exact absurd h (by simp)

/-- Every trade the loop accumulates has exit reason `"SL"` or `"TP"`. -/
theorem btLoop_reasons (cfg : BTConfig) (l : List (ℕ × Row × Bool × Bool)) :
    ∀ st : BTState,
      (∀ t ∈ st.trades, t.exit_reason = "SL" ∨ t.exit_reason = "TP") →
      ∀ t ∈ (btLoop cfg l st).trades, t.exit_reason = "SL" ∨ t.exit_reason = "TP" := by
  induction l with
  | nil => intro st h; exact h
  | cons x rest ih =>
    obtain ⟨i, row, eL, eS⟩ := x
    intro st h
    apply ih
    rw [(entryPhase_trades_equity cfg i row eL eS (exitPhase cfg i row st)).1]
    rcases exitPhase_cases cfg i row st with hid | ⟨d, xp, reason, _, hdec, hclose⟩
    · rw [hid]; exact h
    · rw [hclose]
      intro t ht
      rcases List.mem_append.mp ht with hmem | hmem
      · exact h t hmem
      · have : t.exit_reason = reason := by
          rcases List.mem_singleton.mp hmem with rfl
          rfl
        rw [this]
        exact exitDecision_reason cfg st.in_position row d xp reason hdec

/-- C2 (amended): the simulator has no maximum-holding-horizon exit at all —
every recorded trade closes with `exit_reason` `"SL"` or `"TP"`, and a
position that touches neither barrier is simply never closed (no `TIME`
exit exists in the code). -/
theorem trades_exit_reason_sl_or_tp (cfg : BTConfig) (rows : List Row) :
    ∀ t ∈ (run_vectorized_backtest cfg rows).trades,
      t.exit_reason = "SL" ∨ t.exit_reason = "TP" := by
  intro t ht
  unfold run_vectorized_backtest at ht
  dsimp only at ht
  split at ht
  · exact absurd ht (by simp)
  · exact btLoop_reasons cfg (indexedRows rows) (initialState cfg)
      (by intro u hu; exact absurd hu (by simp [initialState])) t ht

def cfgSim : BTConfig :=
  { initial_capital := 10000, stop_loss_pct := some (1/50),
    take_profit_pct := some (1/25), slippage_pct := 0, commission_pct := 0 }

def rowFlat : Row :=
  { open_price := 100, high := 103, low := 99, close := 100,
    long_signal := 0, short_signal := 0 }

/-- 30 bars: a long entry signal on bar 0 (entry executes at bar 1's open,
100, giving stop 98 and target 104) followed by 29 bars whose lows stay
above the stop and whose highs stay below the target. -/
def rowsNoTouch : List Row :=
  { open_price := 100, high := 100, low := 100, close := 100,
    long_signal := 1, short_signal := 0 } :: List.replicate 29 rowFlat

set_option maxRecDepth 20000 in
/-- C2 counterexample: a position entered at bar 1 whose stop and target
are never touched during the remaining 28 bars is still open at the end of
the loop and produces no trade at all — in particular no trade with
`exit_reason = TIME` at any holding horizon, contradicting the claimed
time-based exit. -/
theorem no_time_exit_counterexample :
    rowsNoTouch.length = 30 ∧
    (btLoop cfgSim (indexedRows rowsNoTouch) (initialState cfgSim)).in_position = 1 ∧
    (run_vectorized_backtest cfgSim rowsNoTouch).trades = [] := by
  refine ⟨by with_unfolding_all rfl, by with_unfolding_all rfl, by with_unfolding_all rfl⟩

/-- Three bars with a long entry signal on bar 0 and a stop-out on bar 2. -/
def rowsStopOut : List Row :=
  [ { open_price := 100, high := 100, low := 100, close := 100,
      long_signal := 1, short_signal := 0 },
    { open_price := 100, high := 100, low := 100, close := 100,
      long_signal := 0, short_signal := 0 },
    { open_price := 100, high := 100, low := 97, close := 98,
      long_signal := 0, short_signal := 0 } ]

/-- The single trade produced by `rowsStopOut` under `cfgSim`. -/
def tradeStopOut : TradeRec :=
  { entry_time := 1, exit_time := 2, pnl_pct := -1/50, exit_reason := "SL",
    trade_type := "LONG" }

/-- C2 witness: `trades_exit_reason_sl_or_tp` applied to a concrete run
with one stop-out trade. -/
theorem trades_exit_reason_sl_or_tp_witness :
    tradeStopOut ∈ (run_vectorized_backtest cfgSim rowsStopOut).trades ∧
    (tradeStopOut.exit_reason = "SL" ∨ tradeStopOut.exit_reason = "TP") :=
  have hmem : tradeStopOut ∈ (run_vectorized_backtest cfgSim rowsStopOut).trades := by
    have heq : (run_vectorized_backtest cfgSim rowsStopOut).trades = [tradeStopOut] := by
      with_unfolding_all rfl
    rw [heq]
    exact List.mem_singleton.mpr rfl
  ⟨hmem, trades_exit_reason_sl_or_tp cfgSim rowsStopOut tradeStopOut hmem⟩

/-- C9: every input that produces zero trades (in particular an empty
price/signal frame) yields the neutral result: total return 0%, Sharpe
ratio 0, max drawdown 0%, an empty trade list and final capital equal to
initial capital — returned as a literal dictionary, so no division or
indexing is performed on the way. -/
theorem zero_trades_neutral (cfg : BTConfig) (rows : List Row)
    (h : (run_vectorized_backtest cfg rows).trades = []) :
    run_vectorized_backtest cfg rows =
      { total_return_pct := 0, sharpe := some 0, max_drawdown_pct := 0,
        final_capital := cfg.initial_capital, num_trades := 0, trades := [],
        equity := [cfg.initial_capital] } := by
  unfold run_vectorized_backtest at h ⊢
  dsimp only at h ⊢
  split at h
  · rename_i hcond
    rw [if_pos hcond]
  · rename_i hcond
    exact absurd h hcond

/-- C9 witness: `zero_trades_neutral` on the empty input. -/
theorem zero_trades_neutral_witness :
    (run_vectorized_backtest cfgSim []).trades = [] ∧
    run_vectorized_backtest cfgSim [] =
      { total_return_pct := 0, sharpe := some 0, max_drawdown_pct := 0,
        final_capital := cfgSim.initial_capital, num_trades := 0, trades := [],
        equity := [cfgSim.initial_capital] } :=
  have h0 : (run_vectorized_backtest cfgSim []).trades = [] := by
    with_unfolding_all rfl
  ⟨h0, zero_trades_neutral cfgSim [] h0⟩

/-- Three bars with a short entry signal on bar 0: entry executes at bar
1's open (100), stop 102, target 96; bar 2's high (103) touches the stop. -/
def rowsShortStop : List Row :=
  [ { open_price := 100, high := 100, low := 100, close := 100,
      long_signal := 0, short_signal := 1 },
    { open_price := 100, high := 100, low := 100, close := 100,
      long_signal := 0, short_signal := 0 },
    { open_price := 100, high := 103, low := 100, close := 100,
      long_signal := 0, short_signal := 0 } ]

/-- C1 counterexample: with zero costs, a short trade entered at 100 and
stopped at 102 records `pnl_pct = 100/102 - 1 = -1/51`, not the
sign-adjusted `(exit - entry)/entry = -(102-100)/100 = -1/50` the claim
states (the code divides by the exit price for shorts); and the equity
series moves from 10000 to `10000 * (1 - 1/51)`, i.e. the realized dollar
P&L is `pnl_pct` times the whole current equity — there is no
RiskSizer-sized position anywhere in the computation. -/
theorem short_pnl_full_equity_counterexample :
    (run_vectorized_backtest cfgSim rowsShortStop).trades =
      [{ entry_time := 1, exit_time := 2, pnl_pct := -1/51, exit_reason := "SL",
         trade_type := "SHORT" }] ∧
    (run_vectorized_backtest cfgSim rowsShortStop).equity = [10000, 500000/51] ∧
    (-1/51 : ℚ) ≠ -((102 - 100) / 100) := by
  refine ⟨by with_unfolding_all rfl, by with_unfolding_all rfl, by norm_num⟩

/-- Placeholder trade used as the `getD` default; never selected at an
in-range index. -/
def dummyTrade : TradeRec :=
  { entry_time := 0, exit_time := 0, pnl_pct := 0, exit_reason := "",
    trade_type := "" }

/-- Loop invariant: the equity curve has exactly one more point than the
trade list, and each successive equity point is the previous one times
`1 + pnl_pct` of the corresponding trade. -/
def equityUpdateInv (st : BTState) : Prop :=
  st.equity.length = st.trades.length + 1 ∧
  ∀ k, k < st.trades.length →
    st.equity.getD (k+1) 0 =
      st.equity.getD k 0 * (1 + (st.trades.getD k dummyTrade).pnl_pct)

theorem equityUpdateInv_step (cfg : BTConfig) (i : ℕ) (row : Row)
    (eL eS : Bool) (st : BTState) (h : equityUpdateInv st) :
    equityUpdateInv (entryPhase cfg i row eL eS (exitPhase cfg i row st)) := by
  have hentry := entryPhase_trades_equity cfg i row eL eS (exitPhase cfg i row st)
  unfold equityUpdateInv at h ⊢
  rw [hentry.1, hentry.2]
  rcases exitPhase_cases cfg i row st with hid | ⟨d, xp, reason, hd, hdec, hclose⟩
  · rw [hid]
    exact h
  · rw [hclose]
    dsimp only
    obtain ⟨hlen, hrel⟩ := h
    constructor
    · simp [hlen]
    · intro k hk
      simp only [List.length_append, List.length_singleton] at hk
      rcases Nat.lt_succ_iff_lt_or_eq.mp hk with hk2 | hk2
      · rw [getD_append_left _ _ _ (by omega) 0,
            getD_append_left _ _ _ (by omega) 0,
            getD_append_left _ _ _ hk2 dummyTrade]
        exact hrel k hk2
      · subst hk2
        have hidx : st.trades.length + 1 = st.equity.length := hlen.symm
        rw [hidx, getD_append_len,
            getD_append_left _ _ _ (by omega) 0,
            getD_append_len]
        have hlast : st.equity.getLastD cfg.initial_capital =
            st.equity.getD st.trades.length 0 := by
          rw [getLastD_eq_getD st.equity cfg.initial_capital st.trades.length hlen]
          exact getD_default_irrelevant st.equity st.trades.length (by omega) _ _
        rw [hlast]

theorem btLoop_equityInv (cfg : BTConfig) (l : List (ℕ × Row × Bool × Bool)) :
    ∀ st : BTState, equityUpdateInv st → equityUpdateInv (btLoop cfg l st) := by
  induction l with
  | nil => intro st h; exact h
  | cons x rest ih =>
    obtain ⟨i, row, eL, eS⟩ := x
    intro st h
    exact ih _ (equityUpdateInv_step cfg i row eL eS st h)

/-- C1 (amended): the recorded percentage return of a closed trade is
`exit_ac / entry_ac - 1` for longs and `entry_ac / exit_ac - 1` for shorts
(both prices cost-adjusted; the short return is taken relative to the exit
price, not the entry), and the equity series gains exactly one point per
closed trade with `new = old * (1 + pnl_pct)`: the realized dollar P&L is
`pnl_pct` times the entire current equity.  No RiskSizer-derived position
size enters the computation. -/
theorem equity_full_compounding (cfg : BTConfig) (rows : List Row) :
    ((run_vectorized_backtest cfg rows).equity.length =
       (run_vectorized_backtest cfg rows).trades.length + 1 ∧
     ∀ k, k < (run_vectorized_backtest cfg rows).trades.length →
       (run_vectorized_backtest cfg rows).equity.getD (k+1) 0 =
         (run_vectorized_backtest cfg rows).equity.getD k 0 *
           (1 + ((run_vectorized_backtest cfg rows).trades.getD k dummyTrade).pnl_pct)) ∧
    (∀ (i : ℕ) (row : Row) (st : BTState) (d : PositionDetails) (xp : ℚ)
        (reason : String),
      st.in_position = 1 → st.position_details = some d →
      exitDecision cfg 1 row d = some (xp, reason) → xp ≠ 0 →
      (exitPhase cfg i row st).trades = st.trades ++
        [{ entry_time := d.entry_time, exit_time := i,
           pnl_pct := xp * (1 - cfg.slippage_pct - cfg.commission_pct) /
             d.entry_price_after_costs - 1,
           exit_reason := reason, trade_type := "LONG" }]) ∧
    (∀ (i : ℕ) (row : Row) (st : BTState) (d : PositionDetails) (xp : ℚ)
        (reason : String),
      st.in_position = -1 → st.position_details = some d →
      exitDecision cfg (-1) row d = some (xp, reason) → xp ≠ 0 →
      (exitPhase cfg i row st).trades = st.trades ++
        [{ entry_time := d.entry_time, exit_time := i,
           pnl_pct := d.entry_price_after_costs /
             (xp * (1 + cfg.slippage_pct + cfg.commission_pct)) - 1,
           exit_reason := reason, trade_type := "SHORT" }]) := by
  refine ⟨?_, ?_, ?_⟩
  · have hinv : equityUpdateInv (btLoop cfg (indexedRows rows) (initialState cfg)) := by
      apply btLoop_equityInv
      constructor
      · rfl
      · intro k hk
        exact absurd hk (by simp [initialState])
    unfold run_vectorized_backtest
    dsimp only
    split
    · constructor
      · rfl
      · intro k hk
        exact absurd hk (by simp)
    · exact hinv
  · intro i row st d xp reason hside hd hdec hxp
    simp only [exitPhase, hside, hd]
    simp only [hdec]
    simp [hxp, pnlOf]
  · intro i row st d xp reason hside hd hdec hxp
    simp only [exitPhase, hside, hd]
    simp only [hdec]
    simp [hxp, pnlOf]

/-- C1 witness: `equity_full_compounding` at the concrete short-stop run:
the single trade multiplies equity by `1 + pnl_pct`. -/
theorem equity_full_compounding_witness :
    0 < (run_vectorized_backtest cfgSim rowsShortStop).trades.length ∧
    (run_vectorized_backtest cfgSim rowsShortStop).equity.getD 1 0 =
      (run_vectorized_backtest cfgSim rowsShortStop).equity.getD 0 0 *
        (1 + ((run_vectorized_backtest cfgSim rowsShortStop).trades.getD 0
          dummyTrade).pnl_pct) :=
  have hlen : 0 < (run_vectorized_backtest cfgSim rowsShortStop).trades.length := by
    with_unfolding_all decide
  ⟨hlen, (equity_full_compounding cfgSim rowsShortStop).1.2 0 hlen⟩

def cfgTpSlip : BTConfig :=
  { initial_capital := 10000, stop_loss_pct := some (1/50),
    take_profit_pct := some (1/25), slippage_pct := 1/100, commission_pct := 0 }

/-- Three bars with a long entry signal on bar 0: entry executes at bar 1's
open (100, after-cost 101), stop 98, target 104; bar 2's high (105) touches
the target without touching the stop. -/
def rowsTpHit : List Row :=
  [ { open_price := 100, high := 100, low := 100, close := 100,
      long_signal := 1, short_signal := 0 },
    { open_price := 100, high := 100, low := 100, close := 100,
      long_signal := 0, short_signal := 0 },
    { open_price := 100, high := 105, low := 99, close := 100,
      long_signal := 0, short_signal := 0 } ]

/-- C6 counterexample: with 1% slippage and zero commission, the target
exit at barrier 104 records `pnl_pct = 104*(1-1/100)/101 - 1 = 49/2525`,
not the unadjusted-target value `104/101 - 1 = 75/2525` the claim implies —
the code applies the slippage adjustment to target exits too, not to stop
exits only. -/
theorem tp_exit_slippage_counterexample :
    (run_vectorized_backtest cfgTpSlip rowsTpHit).trades =
      [{ entry_time := 1, exit_time := 2, pnl_pct := 49/2525, exit_reason := "TP",
         trade_type := "LONG" }] ∧
    (49/2525 : ℚ) ≠ 104 / (100 * (1 + 1/100)) - 1 := by
  refine ⟨by with_unfolding_all rfl, by norm_num⟩

/-- C6 (amended): while a position is open the stop condition is checked
strictly before the target condition — on a bar satisfying both, the trade
closes as a stop at the stop price — and the closing price is adjusted by
slippage AND commission on BOTH stop and target exits (long: `×(1-s-c)`,
short: `×(1+s+c)`); target exits are not exempt. -/
theorem stop_checked_first_and_costs_on_both_exits (cfg : BTConfig)
    (side : Int) (row : Row) (d : PositionDetails) :
    (stopHit cfg side row d = true →
      exitDecision cfg side row d = some (d.stop_price.getD 0, "SL")) ∧
    (stopHit cfg side row d = false → tpHit cfg side row d = true →
      exitDecision cfg side row d = some (d.tp_price.getD 0, "TP")) ∧
    (∀ entryAC xp : ℚ, pnlOf cfg 1 entryAC xp =
      xp * (1 - cfg.slippage_pct - cfg.commission_pct) / entryAC - 1) ∧
    (∀ entryAC xp : ℚ, pnlOf cfg (-1) entryAC xp =
      entryAC / (xp * (1 + cfg.slippage_pct + cfg.commission_pct)) - 1) := by
  refine ⟨?_, ?_, ?_, ?_⟩
  · intro hs
    unfold exitDecision
    rw [if_pos hs]
  · intro hs ht
    unfold exitDecision
    rw [if_neg (by simp [hs]), if_pos ht]
  · intro entryAC xp
    unfold pnlOf
    rw [if_pos rfl]
  · intro entryAC xp
    unfold pnlOf
    rw [if_neg (by norm_num)]

/-- A bar whose low touches the stop and whose high touches the target
simultaneously, against a long position entered at 100 (stop 98, target
104). -/
def rowBothHit : Row :=
  { open_price := 100, high := 105, low := 97, close := 100,
    long_signal := 0, short_signal := 0 }

def detailsLong100 : PositionDetails :=
  { entry_time := 1, entry_price_after_costs := 100, stop_price := some 98,
    tp_price := some 104 }

/-- C6 witness: `stop_checked_first_and_costs_on_both_exits` on a bar where
both barrier conditions hold — the decision is the stop, at the stop
price. -/
theorem stop_checked_first_witness :
    stopHit cfgSim 1 rowBothHit detailsLong100 = true ∧
    exitDecision cfgSim 1 rowBothHit detailsLong100 =
      some ((detailsLong100.stop_price.getD 0), "SL") :=
  have hs : stopHit cfgSim 1 rowBothHit detailsLong100 = true := by
    with_unfolding_all rfl
  ⟨hs, (stop_checked_first_and_costs_on_both_exits cfgSim 1 rowBothHit
    detailsLong100).1 hs⟩

end Trady
